import Mathlib

/-!
Verification development for the dynamic form renderer of the pennlabs/clubs
frontend (src/frontend/components/Form.js): the `Form` component (field
dispatch, payload extraction, dirty tracking, submit pipeline, navigation
guard) and the `ModelForm` component (CRUD list editor over an endpoint).

The embedding is shallow: JavaScript values are modelled by the inductive
`Value`; component state objects by association lists keyed by the same
string keys the source uses; JS truthiness, the `||` operator and
`FormData.append` are modelled explicitly; code paths that would raise a
JavaScript `TypeError` return `Except.error`.
-/

namespace Clubs

/-- Shallow model of the JavaScript values that flow through the form:
strings, numbers, booleans, `null`, `undefined`, arrays, plain objects
(as key-value lists, e.g. the `\x7bvalue, label\x7d` option objects of
react-select), and opaque file handles (`File` objects, identified by a
token). -/
inductive Value where
  | str (s : String)
  | num (n : Int)
  | bool (b : Bool)
  | null
  | undef
  | list (vs : List Value)
  | obj (kvs : List (String × Value))
  | file (handle : Nat)

/-- JavaScript truthiness of a modelled value: empty string, zero, `false`,
`null` and `undefined` are falsy; arrays, objects and file handles are
truthy. -/
def Value.truthy : Value → Bool
  | .str s => !(s == "")
  | .num n => !(n == 0)
  | .bool b => b
  | .null => false
  | .undef => false
  | .list _ => true
  | .obj _ => true
  | .file _ => true

/-- Model of the JavaScript `a || b` expression: `a` when truthy, else `b`. -/
def jsOr (a b : Value) : Value :=
  if a.truthy then a else b

/-- Reading `source[key]` from a JS object modelled as an association list:
a missing key reads as `undefined`. -/
def lookupStr (source : List (String × Value)) (key : String) : Value :=
  match source.find? (fun kv => kv.fst == key) with
  | some kv => kv.snd
  | none => Value.undef

/-- Writing `source[key] = v` on a JS object modelled as an association
list: overwrite the first binding of `key` if present, otherwise append. -/
def setKey (source : List (String × Value)) (key : String) (v : Value) :
    List (String × Value) :=
  match source with
  | [] => [(key, v)]
  | kv :: rest =>
      if kv.fst == key then (key, v) :: rest
      else kv :: setKey rest key v

/-- One field descriptor of the form, translated from the destructurings in
`Form` (src/frontend/components/Form.js): a `name`, a `type` string
(dispatch in the source is on the raw string, so the model keeps it as a
string), the optional caller-supplied `converter` and `reverser` functions,
and the nested `fields` list used by the `group` type. Display-only props
(label, placeholder, help, ...) do not influence state or payload and are
omitted. -/
inductive Field where
  | mk (name : String) (type : String)
       (converter : Option (Value → Value))
       (reverser : Option (Value → Value))
       (fields : List Field)

/-- The `name` property of a field descriptor. -/
def Field.name : Field → String
  | .mk n _ _ _ _ => n

/-- The `type` property of a field descriptor. -/
def Field.type : Field → String
  | .mk _ t _ _ _ => t

/-- The `converter` property of a field descriptor. -/
def Field.converter : Field → Option (Value → Value)
  | .mk _ _ c _ _ => c

/-- The `reverser` property of a field descriptor. -/
def Field.reverser : Field → Option (Value → Value)
  | .mk _ _ _ r _ => r

/-- The nested `fields` property of a `group` field descriptor. -/
def Field.fields : Field → List Field
  | .mk _ _ _ _ fs => fs

/-- Translation of `Form.getAllFields` (Form.js lines 129-139): flatten the
descriptor tree; a `group` field contributes the flattening of its children
in place of itself, every other field (whatever its type) is kept. -/
def getAllFields : List Field → List Field
  | [] => []
  | Field.mk n t c r fs :: rest =>
      if t == "group" then getAllFields fs ++ getAllFields rest
      else Field.mk n t c r fs :: getAllFields rest

/-- Model of a JavaScript `FormData` object: an ordered list of entries. -/
abbrev FormDataEntries := List (String × Value)

/-- Model of `FormData.prototype.append`: appends an entry and evaluates to
`undefined` (the method has no return value). -/
def formDataAppend (fd : FormDataEntries) (k : String) (v : Value) :
    FormDataEntries × Value :=
  (fd ++ [(k, v)], Value.undef)

/-- The `this.files` ref map of `Form`: for each file field name, the
`files` FileList of the underlying input element (the selected file
handles), when the ref was populated. -/
abbrev FilesMap := List (String × List Value)

/-- Reading `this.files[name]` from the ref map. -/
def filesLookup (files : FilesMap) (name : String) : Option (List Value) :=
  match List.find? (fun kv => kv.fst == name) files with
  | some kv => some kv.snd
  | none => none

/-- Applying an optional caller-supplied function the way the default branch
of `getFieldData` does: `typeof converter === 'function' ? converter(val) :
val`. -/
def applyConverter (conv : Option (Value → Value)) (val : Value) : Value :=
  match conv with
  | some f => f val
  | none => val

/-- Translation of `Form.getFieldData` (Form.js lines 141-157). `val` is
`source['field-' + name]`. The `switch` on the type string is kept verbatim:
`multiselect` maps `reverser` over `val || []` (calling an absent `reverser`,
or mapping over a truthy non-array, is a JS `TypeError`, modelled as
`Except.error`); `select` returns `reverser(val)` when `val` is truthy and
`val` itself otherwise; `checkbox` returns `Boolean(val)`; `date` returns
`val || null`; `file` returns the result of
`new FormData().append('file', this.files[name].files[0])` (reading `.files`
of an absent ref is a `TypeError`); every other type falls through to the
default branch, `converter(val)` when a converter function is supplied and
`val` otherwise. -/
def getFieldData (files : FilesMap) (source : List (String × Value))
    (name : String) (f : Field) : Except String Value :=
  let val := lookupStr source ("field-" ++ name)
  match f.type with
  | "multiselect" =>
      match f.reverser with
      | none => Except.error "TypeError: reverser is not callable"
      | some rev =>
          match jsOr val (Value.list []) with
          | Value.list vs => Except.ok (Value.list (vs.map rev))
          | _ => Except.error "TypeError: map is not callable"
  | "select" =>
      if val.truthy then
        match f.reverser with
        | none => Except.error "TypeError: reverser is not callable"
        | some rev => Except.ok (rev val)
      else Except.ok val
  | "checkbox" => Except.ok (Value.bool val.truthy)
  | "date" => Except.ok (jsOr val Value.null)
  | "file" =>
      match filesLookup files name with
      | none => Except.error "TypeError: cannot read files of undefined"
      | some handles =>
          Except.ok (formDataAppend [] "file" (handles.headD Value.undef)).snd
  | _ => Except.ok (applyConverter f.converter val)

/-- The `forEach` loop of `Form.getData` (Form.js lines 159-165), as an
explicit recursion over the already-flattened field list with the payload
object built so far: `data[name] = this.getFieldData(name, source, field)`. -/
def getDataAux (files : FilesMap) (source : List (String × Value)) :
    List Field → List (String × Value) →
    Except String (List (String × Value))
  | [], acc => Except.ok acc
  | f :: rest, acc =>
      match getFieldData files source f.name f with
      | Except.error e => Except.error e
      | Except.ok v => getDataAux files source rest (setKey acc f.name v)

/-- Translation of `Form.getData`: flatten the descriptor list with
`getAllFields`, then assign one payload key per flattened field. -/
def getData (fields : List Field) (source : List (String × Value))
    (files : FilesMap) : Except String (List (String × Value)) :=
  getDataAux files source (getAllFields fields) []

/-- Opaque model of the draft-js editor state the constructor builds for an
`html` field: `EditorState.createWithContent(...)` from the default html
string when it is truthy, `EditorState.createEmpty()` otherwise. The editor
internals are irrelevant to payload extraction (the payload reads the
mirrored `field-` key, not the editor state), so only the provenance is
recorded. -/
def editorStateFrom (value : Value) : Value :=
  if value.truthy then Value.obj [("contentFrom", value)] else Value.obj []

/-- The `setDefaults` closure of the `Form` constructor (Form.js lines
40-63), building the initial state object: `group` recurses into its
children; `html` sets only `editorState-name` (note: not `field-name`);
`multiselect` sets `field-name` to `(value || []).map(converter)`;
`select` sets `field-name` to `value ? converter(value) : null`; every
other type sets `field-name` to `value || ''`. Calls of an absent
`converter` are JS `TypeError`s, modelled as `Except.error`. -/
def setDefaultsAux (defaults : List (String × Value)) :
    List Field → List (String × Value) →
    Except String (List (String × Value))
  | [], acc => Except.ok acc
  | Field.mk n t conv _ fs :: rest, acc =>
      let value := lookupStr defaults n
      if t == "group" then
        match setDefaultsAux defaults fs acc with
        | Except.error e => Except.error e
        | Except.ok acc1 => setDefaultsAux defaults rest acc1
      else if t == "html" then
        setDefaultsAux defaults rest
          (setKey acc ("editorState-" ++ n) (editorStateFrom value))
      else if t == "multiselect" then
        match conv with
        | none => Except.error "TypeError: converter is not callable"
        | some c =>
            match jsOr value (Value.list []) with
            | Value.list vs =>
                setDefaultsAux defaults rest
                  (setKey acc ("field-" ++ n) (Value.list (vs.map c)))
            | _ => Except.error "TypeError: map is not callable"
      else if t == "select" then
        if value.truthy then
          match conv with
          | none => Except.error "TypeError: converter is not callable"
          | some c =>
              setDefaultsAux defaults rest
                (setKey acc ("field-" ++ n) (c value))
        else
          setDefaultsAux defaults rest (setKey acc ("field-" ++ n) Value.null)
      else
        setDefaultsAux defaults rest
          (setKey acc ("field-" ++ n) (jsOr value (Value.str "")))

/-- The initial field-state built by the `Form` constructor from the
`fields` descriptors and the `defaults` object. -/
def setDefaults (defaults : List (String × Value)) (fields : List Field) :
    Except String (List (String × Value)) :=
  setDefaultsAux defaults fields []

/-- The state of one `Form` instance that the claims touch: the `edited`
dirty flag, the `uploadStatus` map of file fields, and the field-state
object (keys `field-name` and `editorState-name`). -/
structure FormState where
  edited : Bool
  uploadStatus : List (String × String)
  fieldState : List (String × Value)

/-- Translation of `Form.checkIfEdited` (Form.js lines 433-435):
`this.state.edited || this.setState(\x7b edited: true \x7d)`. The boolean
result records whether a `setState` call was issued (false when the flag
was already set). -/
def checkIfEdited (st : FormState) : FormState × Bool :=
  if st.edited then (st, false) else ({ st with edited := true }, true)

/-- The change handler wired to a controlled input in `generateField`: the
source calls `this.onChange(e)` — which forwards to the optional
`props.onChange` (no state effect) and then `checkIfEdited()` — followed by
`this.setState(\x7b ['field-' + name]: newValue \x7d)`. -/
def handleFieldChange (name : String) (v : Value) (st : FormState) :
    FormState :=
  let st1 := (checkIfEdited st).fst
  { st1 with fieldState := setKey st1.fieldState ("field-" ++ name) v }

/-- Outcome of the promise returned by the caller-supplied `onSubmit`
function, after `Promise.resolve` normalization: a plain return value or a
fulfilled promise are both `fulfilled`; a rejected promise is `rejected`. -/
inductive SubmitOutcome where
  | fulfilled
  | rejected
deriving DecidableEq

/-- Translation of `Form.handleSubmit` (Form.js lines 437-450): first
`setState(\x7b uploadStatus: \x7b\x7d \x7d)`; then `if (!onSubmit) return`;
then `Promise.resolve(onSubmit(this.getSubmitData())).then(() =>
this.setState(\x7b edited: false \x7d))`. The second component records the
payload `onSubmit` was invoked with (`none` when it was not invoked, or
when `getSubmitData` threw before the call). A rejected promise has no
rejection handler attached, so no further state change happens in that
case. -/
def handleSubmit (fields : List Field) (files : FilesMap)
    (hasOnSubmit : Bool) (outcome : SubmitOutcome) (st : FormState) :
    FormState × Option (List (String × Value)) :=
  let st1 : FormState := { st with uploadStatus := [] }
  if hasOnSubmit then
    match getData fields st.fieldState files with
    | Except.error _ => (st1, none)
    | Except.ok payload =>
        match outcome with
        | SubmitOutcome.fulfilled => ({ st1 with edited := false }, some payload)
        | SubmitOutcome.rejected => (st1, some payload)
  else (st1, none)

/-- The two navigation-guard listeners `Form` registers: the window
`beforeunload` handler `confirmExit` and the router `routeChangeStart`
handler `confirmRouteChange`. -/
inductive GuardListener where
  | beforeUnload
  | routeChangeStart
deriving DecidableEq

/-- Translation of `Form.componentDidMount` (Form.js lines 116-122):
`window.addEventListener('beforeunload', ...)` and
`Router.router.events.on('routeChangeStart', ...)` append this instance's
two handlers to the registered listeners. -/
def componentDidMountGuards (ls : List GuardListener) : List GuardListener :=
  ls ++ [GuardListener.beforeUnload, GuardListener.routeChangeStart]

/-- Translation of `Form.componentWillUnmount` (Form.js lines 124-127):
`removeEventListener` / `events.off` remove the registered occurrence of
each of the two handlers. -/
def componentWillUnmountGuards (ls : List GuardListener) :
    List GuardListener :=
  (ls.erase GuardListener.beforeUnload).erase GuardListener.routeChangeStart

/-- Result of a route-change attempt under the guard. -/
inductive RouteChange where
  | proceed
  | aborted
deriving DecidableEq

/-- The unsaved-changes message shown by the guard. -/
def UNSAVED_MESSAGE : String :=
  "You have unsaved changes. Are you sure you want to leave?"

/-- Translation of `Form.confirmRouteChange` (Form.js lines 97-105): when
`edited` is set and the user declines the `confirm` prompt, the handler
calls `router.abortComponentLoad()`, emits `routeChangeError` and throws to
abort the navigation; otherwise it returns normally and navigation
proceeds. -/
def confirmRouteChange (edited userConfirms : Bool) : RouteChange :=
  if edited && !userConfirms then RouteChange.aborted else RouteChange.proceed

/-- Translation of `Form.confirmExit` (Form.js lines 107-114): the
`beforeunload` handler blocks with the unsaved message exactly when
`edited` is set, and otherwise returns `undefined` (no block). -/
def confirmExit (edited : Bool) : Option String :=
  if edited then some UNSAVED_MESSAGE else none

/-- One entity of the `ModelForm` collection: a plain JS object carrying an
optional persisted `id` (absent until the first successful create), the
optional client-only `tempId` the Create action assigns, the optional
`_status` flag the save handlers set, and the remaining data properties. -/
structure Entity where
  id : Option Int
  tempId : Option Nat
  status : Option Bool
  data : List (String × Value)

/-- The `ModelForm` component state after the mount fetch has resolved
(before that, `objects` is `null` and `render` returns an empty fragment).
JavaScript arrays are reference values: `objectsRef` is the identity token
of the current `objects` array, and `nextRef` is a fresh-token allocator.
An update that mutates the array in place (`splice`, `push`) keeps
`objectsRef`; evaluating the spread `[...objects]` allocates `nextRef`. -/
structure MFState where
  objectsRef : Nat
  objects : List Entity
  newCount : Nat
  nextRef : Nat

/-- Network requests issued by `doApiRequest` calls of `ModelForm`. -/
inductive ApiCall where
  | get (url : String)
  | post (url : String)
  | patch (url : String)
  | delete (url : String)
deriving DecidableEq

/-- Translation of `ModelForm.componentDidMount` (Form.js lines 532-538)
together with the constructor (lines 523-530): `objects` starts as `null`
with `newCount = 0`; the `GET \x7bbaseUrl\x7d?format=json` response array
becomes the `objects` state unchanged — nothing is appended to it. -/
def componentDidMountModel (fetched : List Entity) : MFState :=
  { objectsRef := 0, objects := fetched, newCount := 0, nextRef := 1 }

/-- The network call the mount fetch issues. -/
def mountCall (baseUrl : String) : ApiCall :=
  ApiCall.get (baseUrl ++ "?format=json")

/-- The list of `Form` instances `ModelForm.render` produces once `objects`
is non-null: one per entry of `objects`, with that entity as `defaults`
(the trailing Create control is a button, not a form instance). -/
def renderedForms (st : MFState) : List Entity :=
  st.objects

/-- The blank entity the Create action pushes: `\x7b tempId: newCount \x7d`. -/
def blankEntity (n : Nat) : Entity :=
  { id := none, tempId := some n, status := none, data := [] }

/-- Translation of the Create button handler (Form.js lines 638-650):
`setState((\x7b objects, newCount \x7d) => \x7b objects.push(\x7b tempId:
newCount \x7d); return \x7b objects, newCount: newCount + 1 \x7d \x7d)` —
an in-place push on the same array (identity preserved) and an increment of
the counter. -/
def createHandler (st : MFState) : MFState :=
  { st with
      objects := st.objects ++ [blankEntity st.newCount],
      newCount := st.newCount + 1 }

/-- Translation of the Delete button handler (Form.js lines 600-620),
for the entity at position `i` (the source locates it by object identity
via `objects.indexOf(object)`): with a persisted id, issue
`DELETE \x7bbaseUrl\x7d\x7bid\x7d/?format=json` and, only when the response
is ok, splice the entity out of the same array in place; with no persisted
id, splice it out immediately and issue no request. The second component
lists the network calls issued. -/
def deleteHandler (baseUrl : String) (st : MFState) (i : Nat)
    (respOk : Bool) : MFState × List ApiCall :=
  match st.objects[i]? with
  | none => (st, [])
  | some obj =>
      match obj.id with
      | some oid =>
          if respOk then
            ({ st with objects := st.objects.eraseIdx i },
             [ApiCall.delete (baseUrl ++ toString oid ++ "/?format=json")])
          else
            (st, [ApiCall.delete (baseUrl ++ toString oid ++ "/?format=json")])
      | none => ({ st with objects := st.objects.eraseIdx i }, [])

/-- The merge a successful create performs (Form.js lines 573-578):
`Object.keys(resp).forEach(key => \x7b object[key] = resp[key] \x7d)` — the
server entity (its `id` and data properties) overwrites the local object
property by property; properties the response does not mention (such as the
client-only `tempId`) are left in place. -/
def mergeResp (e : Entity) (respId : Int) (respData : List (String × Value)) :
    Entity :=
  { e with
      id := some respId,
      data := respData.foldl (fun acc kv => setKey acc kv.fst kv.snd) e.data }

/-- Translation of the save (`onSubmit`) handler (Form.js lines 566-597)
for the entity at position `i`: with no persisted id, issue
`POST \x7bbaseUrl\x7d?format=json`; on ok, merge the response entity into
the object and set `_status = true`, else set `_status = false`. With a
persisted id, issue `PATCH \x7bbaseUrl\x7d\x7bid\x7d/?format=json` and set
`_status = resp.ok`. In every branch the state update is
`setState((\x7b objects \x7d) => (\x7b objects: [...objects] \x7d))`: the
spread allocates a fresh array identity. -/
def saveHandler (baseUrl : String) (st : MFState) (i : Nat) (respOk : Bool)
    (respId : Int) (respData : List (String × Value)) :
    MFState × List ApiCall :=
  match st.objects[i]? with
  | none => (st, [])
  | some obj =>
      match obj.id with
      | none =>
          let obj1 :=
            if respOk then { mergeResp obj respId respData with status := some true }
            else { obj with status := some false }
          ({ st with
               objects := st.objects.set i obj1,
               objectsRef := st.nextRef,
               nextRef := st.nextRef + 1 },
           [ApiCall.post (baseUrl ++ "?format=json")])
      | some oid =>
          ({ st with
               objects := st.objects.set i { obj with status := some respOk },
               objectsRef := st.nextRef,
               nextRef := st.nextRef + 1 },
           [ApiCall.patch (baseUrl ++ toString oid ++ "/?format=json")])

/-- The states a mounted `ModelForm` can reach: the mount fetch delivers
server entities (persisted rows, which carry no client-only `tempId`
property), after which any interleaving of Create clicks, Delete clicks
(with either response outcome) and saves (with either outcome and any
response body) may run. -/
inductive Reachable (baseUrl : String) : MFState → Prop
  | mount (fetched : List Entity)
      (hf : ∀ e ∈ fetched, e.tempId = none) :
      Reachable baseUrl (componentDidMountModel fetched)
  | create {st : MFState} :
      Reachable baseUrl st → Reachable baseUrl (createHandler st)
  | del {st : MFState} (i : Nat) (respOk : Bool) :
      Reachable baseUrl st →
      Reachable baseUrl (deleteHandler baseUrl st i respOk).fst
  | save {st : MFState} (i : Nat) (respOk : Bool) (respId : Int)
      (respData : List (String × Value)) :
      Reachable baseUrl st →
      Reachable baseUrl (saveHandler baseUrl st i respOk respId respData).fst

/-- The client-only temporary ids present in the collection. -/
def tempIds (st : MFState) : List Nat :=
  st.objects.filterMap Entity.tempId

/-- The client-only temporary ids of the entities that are still unsaved
(no persisted id). -/
def unsavedTempIds (st : MFState) : List Nat :=
  (st.objects.filter (fun e => e.id.isNone)).filterMap Entity.tempId

/-! ### Helper lemmas -/

theorem lookupStr_setKey (l : List (String × Value)) (k : String) (v : Value) :
    lookupStr (setKey l k v) k = v := by
  induction l with
  | nil => simp [setKey, lookupStr]
  | cons kv rest ih =>
      by_cases hk : kv.fst = k
      · simp [setKey, lookupStr, hk]
      · simp only [setKey, lookupStr] at ih ⊢
        simp [hk, List.find?_cons, ih]

theorem setKey_idem (l : List (String × Value)) (k : String) (v : Value) :
    setKey (setKey l k v) k v = setKey l k v := by
  induction l with
  | nil => simp [setKey]
  | cons kv rest ih =>
      by_cases hk : kv.fst = k
      · simp [setKey, hk]
      · simp [setKey, hk, ih]

/-! ### Claim theorems -/

/-- Claim C9: calling the change handler twice with the same new value is
idempotent — the second call is a state-level no-op, `edited` ends true,
the stored slice equals the (second) call value, and once `edited` is true
`checkIfEdited` issues no further `setState`. -/
theorem Form_change_handler_idempotent (st : FormState) (name : String)
    (v : Value) :
    handleFieldChange name v (handleFieldChange name v st) =
        handleFieldChange name v st
      ∧ (handleFieldChange name v st).edited = true
      ∧ lookupStr
          (handleFieldChange name v (handleFieldChange name v st)).fieldState
          ("field-" ++ name) = v
      ∧ (checkIfEdited (handleFieldChange name v st)).snd = false := by
  obtain ⟨e, u, fs⟩ := st
  cases e <;>
    simp [handleFieldChange, checkIfEdited, setKey_idem, lookupStr_setKey]

/-- Claim C4: `submit()` clears the upload-status state, builds the payload
from the current field state, invokes the caller-supplied submit function
with it; on fulfillment `edited` resets to false, on rejection `edited` is
left as it was and no field-value slice is cleared. -/
theorem Form_submit_pipeline (fields : List Field) (files : FilesMap)
    (st : FormState) (outcome : SubmitOutcome)
    (payload : List (String × Value))
    (h : getData fields st.fieldState files = Except.ok payload) :
    handleSubmit fields files true outcome st =
      ({ edited := if outcome = SubmitOutcome.fulfilled then false else st.edited,
         uploadStatus := [],
         fieldState := st.fieldState }, some payload) := by
  cases outcome <;> simp [handleSubmit, h]

/-- Witness for C4: a dirty form whose submit function rejects keeps
`edited = true` and its field values, while the upload-status state is
cleared and the submit function received the payload. -/
theorem Form_submit_pipeline_witness :
    handleSubmit [] [] true SubmitOutcome.rejected
        { edited := true, uploadStatus := [("logo", "x.png")],
          fieldState := [("field-name", Value.str "Chess Club")] } =
      ({ edited := true, uploadStatus := [],
         fieldState := [("field-name", Value.str "Chess Club")] }, some []) :=
  Form_submit_pipeline [] []
    { edited := true, uploadStatus := [("logo", "x.png")],
      fieldState := [("field-name", Value.str "Chess Club")] }
    SubmitOutcome.rejected [] (by simp [getData, getDataAux, getAllFields])

/-- Claim C7: the navigation guard is a scoped resource — the two listeners
registered on mount are exactly the ones deregistered on unmount, leaving
none; with `edited` false the route guard always proceeds (in particular
right after a fulfilled submission, whose state has `edited = false`) and
the unload guard does not block; with `edited` true and the prompt
declined, the route change is aborted by the throw. -/
theorem Form_navigation_guard_scoped (fields : List Field) (files : FilesMap)
    (st : FormState) (payload : List (String × Value))
    (h : getData fields st.fieldState files = Except.ok payload) :
    componentWillUnmountGuards (componentDidMountGuards []) = []
      ∧ (∀ c, confirmRouteChange false c = RouteChange.proceed)
      ∧ confirmExit false = none
      ∧ confirmRouteChange true false = RouteChange.aborted
      ∧ (∀ c, confirmRouteChange
          (handleSubmit fields files true SubmitOutcome.fulfilled st).fst.edited
          c = RouteChange.proceed) := by
  refine ⟨rfl, ?_, rfl, rfl, ?_⟩
  · intro c; simp [confirmRouteChange]
  · intro c
    simp [handleSubmit, h, confirmRouteChange]

/-- Witness for C7: after a concrete fulfilled submission, navigating away
proceeds even when the user would have declined the prompt. -/
theorem Form_navigation_guard_scoped_witness :
    confirmRouteChange
        (handleSubmit [] [] true SubmitOutcome.fulfilled
          { edited := true, uploadStatus := [], fieldState := [] }).fst.edited
        false = RouteChange.proceed :=
  (Form_navigation_guard_scoped [] []
    { edited := true, uploadStatus := [], fieldState := [] } []
    (by simp [getData, getDataAux, getAllFields])).2.2.2.2 false

/-- Any type string outside the five specially-dispatched cases of the
`switch` in `getFieldData` falls through to the default branch:
`converter(val)` when a converter function is supplied, the raw `val`
otherwise. -/
theorem getFieldData_default (files : FilesMap)
    (source : List (String × Value)) (name : String) (f : Field)
    (h : f.type ∉ ["multiselect", "select", "checkbox", "date", "file"]) :
    getFieldData files source name f =
      Except.ok (applyConverter f.converter
        (lookupStr source ("field-" ++ name))) := by
  simp only [List.mem_cons, not_or] at h
  obtain ⟨h1, h2, h3, h4, h5, -⟩ := h
  unfold getFieldData
  split
  · exact absurd (by assumption) h1
  · exact absurd (by assumption) h2
  · exact absurd (by assumption) h3
  · exact absurd (by assumption) h4
  · exact absurd (by assumption) h5
  · rfl

/-- Claim C2 (code bug): for a `file` field whose picker holds a selected
file, the extracted payload value is the return value of
`FormData.prototype.append` — `undefined` — not the raw file handle. -/
theorem Form_file_payload_is_undefined :
    getFieldData [("logo", [Value.file 7])] [] "logo"
        (Field.mk "logo" "file" none none []) = Except.ok Value.undef
      ∧ Value.undef ≠ Value.file 7 := by
  constructor
  · rfl
  · simp

/-- Counterexample to claim C6: for a `date` field with a caller-supplied
converter, `getFieldData` returns the raw stored value — the `case 'date'`
arm runs before the default branch, so the converter is never applied. -/
theorem Form_date_ignores_converter_counterexample :
    getFieldData [] [("field-d", Value.str "2024-01-01")] "d"
        (Field.mk "d" "date" (some (fun _ => Value.str "CONVERTED")) none [])
      = Except.ok (Value.str "2024-01-01")
      ∧ Except.ok (Value.str "2024-01-01") ≠
          (Except.ok (Value.str "CONVERTED") : Except String Value) := by
  constructor
  · rfl
  · simp

/-- Claim C6 as amended: for `text`, `url`, `email` and `number` fields the
extracted value is the raw stored value, or the converter applied to it
when one is supplied; for `date` fields the extracted value is the stored
value when truthy and `null` otherwise, and a supplied converter is
ignored. -/
theorem Form_text_like_extraction (files : FilesMap)
    (source : List (String × Value)) (name : String)
    (conv rev : Option (Value → Value)) (fs : List Field) :
    (∀ t, t = "text" ∨ t = "url" ∨ t = "email" ∨ t = "number" →
        getFieldData files source name (Field.mk name t conv rev fs) =
          Except.ok (applyConverter conv (lookupStr source ("field-" ++ name))))
      ∧ getFieldData files source name (Field.mk name "date" conv rev fs) =
          Except.ok (jsOr (lookupStr source ("field-" ++ name)) Value.null) := by
  constructor
  · intro t ht
    apply getFieldData_default
    rcases ht with h | h | h | h <;> subst h <;> simp [Field.type]
  · rfl

/-- Witness for the amended C6: a concrete `text` field with a converter
has the converter applied, and a concrete `date` field with an empty
stored value extracts as `null`. -/
theorem Form_text_like_extraction_witness :
    getFieldData [] [("field-n", Value.str "42")] "n"
        (Field.mk "n" "text" (some (fun _ => Value.num 42)) none []) =
      Except.ok (Value.num 42)
      ∧ getFieldData [] [("field-d", Value.str "")] "d"
          (Field.mk "d" "date" none none []) = Except.ok Value.null := by
  constructor
  · exact (Form_text_like_extraction [] [("field-n", Value.str "42")] "n"
      (some (fun _ => Value.num 42)) none []).1 "text" (Or.inl rfl)
  · exact (Form_text_like_extraction [] [("field-d", Value.str "")] "d"
      none none []).2

/-- Key of a payload or state object after a `setKey` assignment: the
assigned key plus the keys already present. -/
theorem mem_keys_setKey (l : List (String × Value)) (k : String) (v : Value)
    (k' : String) :
    k' ∈ (setKey l k v).map Prod.fst ↔ k' = k ∨ k' ∈ l.map Prod.fst := by
  induction l with
  | nil => simp [setKey]
  | cons kv rest ih =>
      by_cases hk : kv.fst = k
      · subst hk; simp [setKey]
      · simp [setKey, hk, ih]
        tauto

/-- Keys of the payload object built by the `getData` loop: the keys of the
accumulator plus the names of the remaining flattened fields. -/
theorem getDataAux_keys (files : FilesMap) (source : List (String × Value)) :
    ∀ (fs : List Field) (acc p : List (String × Value)),
      getDataAux files source fs acc = Except.ok p →
      ∀ k, k ∈ p.map Prod.fst ↔ k ∈ acc.map Prod.fst ∨ k ∈ fs.map Field.name
  | [], acc, p, h, k => by
      simp only [getDataAux] at h
      cases h; simp
  | f :: rest, acc, p, h, k => by
      simp only [getDataAux] at h
      cases hf : getFieldData files source f.name f with
      | error e => rw [hf] at h; cases h
      | ok v =>
          rw [hf] at h
          have ihk := getDataAux_keys files source rest (setKey acc f.name v) p h k
          rw [ihk, mem_keys_setKey]
          simp
          tauto

/-- Keys of the submit payload: exactly the names of the flattened
(non-group) field descriptors, component and unrecognized fields
included. -/
theorem getData_keys (fields : List Field) (source : List (String × Value))
    (files : FilesMap) (p : List (String × Value))
    (h : getData fields source files = Except.ok p) (k : String) :
    k ∈ p.map Prod.fst ↔ k ∈ (getAllFields fields).map Field.name := by
  have hk := getDataAux_keys files source (getAllFields fields) [] p h k
  simpa using hk

/-- The field types `generateField` recognizes (every other type string
renders the inline error marker). -/
def recognizedTypes : List String :=
  ["text", "url", "email", "date", "number", "datetime-local", "html",
   "textarea", "group", "component", "file", "multiselect", "select",
   "checkbox"]

/-- Counterexample to claim C3: a form holding a single `component` field
named `c` (state as built by the constructor from empty defaults) produces
the payload `\x7b c: '' \x7d` — the payload does contain a key for the
component field; the same holds for an unrecognized type. -/
theorem Form_component_emits_key_counterexample :
    setDefaults [] [Field.mk "c" "component" none none []] =
        Except.ok [("field-c", Value.str "")]
      ∧ getData [Field.mk "c" "component" none none []]
          [("field-c", Value.str "")] [] = Except.ok [("c", Value.str "")]
      ∧ getData [Field.mk "u" "mystery" none none []]
          [("field-u", Value.str "x")] [] = Except.ok [("u", Value.str "x")] := by
  refine ⟨?_, ?_, ?_⟩ <;>
    simp [setDefaults, setDefaultsAux, getData, getDataAux, getAllFields,
      getFieldData, applyConverter, setKey, lookupStr, jsOr, Value.truthy,
      editorStateFrom, Field.name, Field.type, Field.converter, Field.reverser]

/-- Claim C3 as amended: `component` fields and fields of unrecognized type
do contribute a payload key — the default extraction branch applies, so the
key holds the stored slice (converter applied when supplied); `group`
fields contribute no key of their own, and the payload keys are exactly the
names of the flattened field list, in which a group is replaced by its
children. -/
theorem Form_payload_key_policy (files : FilesMap)
    (source : List (String × Value)) (name : String)
    (conv rev : Option (Value → Value)) (fs : List Field) :
    (getFieldData files source name (Field.mk name "component" conv rev fs) =
        Except.ok (applyConverter conv (lookupStr source ("field-" ++ name))))
      ∧ (∀ f : Field, f.type ∉ recognizedTypes →
          getFieldData files source name f =
            Except.ok (applyConverter f.converter
              (lookupStr source ("field-" ++ name))))
      ∧ (∀ (n : String) (c r : Option (Value → Value)) (gfs rest : List Field),
          getAllFields (Field.mk n "group" c r gfs :: rest) =
            getAllFields gfs ++ getAllFields rest)
      ∧ (∀ (fields : List Field) (p : List (String × Value)),
          getData fields source files = Except.ok p →
          ∀ k, k ∈ p.map Prod.fst ↔ k ∈ (getAllFields fields).map Field.name) := by
  refine ⟨?_, ?_, ?_, ?_⟩
  · exact getFieldData_default files source name _ (by simp [Field.type])
  · intro f hf
    apply getFieldData_default
    intro hmem
    apply hf
    simp only [recognizedTypes, List.mem_cons] at hmem ⊢
    tauto
  · intro n c r gfs rest
    simp [getAllFields]
  · intro fields p h k
    exact getData_keys fields source files p h k

/-- Witness for the amended C3: for a concrete group containing a text
field and a component field, the payload keys are exactly the two child
names — the component key is present, the group name is not. -/
theorem Form_payload_key_policy_witness :
    ("c" ∈ ([("a", Value.str "x"), ("c", Value.str "y")] :
          List (String × Value)).map Prod.fst ↔
        "c" ∈ (getAllFields
          [Field.mk "g" "group" none none
            [Field.mk "a" "text" none none [],
             Field.mk "c" "component" none none []]]).map Field.name) :=
  (Form_payload_key_policy []
      [("field-a", Value.str "x"), ("field-c", Value.str "y")]
      "c" none none []).2.2.2
    [Field.mk "g" "group" none none
      [Field.mk "a" "text" none none [],
       Field.mk "c" "component" none none []]]
    [("a", Value.str "x"), ("c", Value.str "y")]
    (by simp [getData, getDataAux, getAllFields, getFieldData, applyConverter,
          setKey, lookupStr, Field.name, Field.type, Field.converter])
    "c"

/-- The state of a `ModelForm` right after its mount fetch resolved with
the single persisted entity `\x7b id: 1, name: "A" \x7d`. -/
def savedOne : MFState :=
  componentDidMountModel
    [{ id := some 1, tempId := none, status := none,
       data := [("name", Value.str "A")] }]

/-- Counterexample to claim C1: after the mount fetch resolves with the
one-element list `[\x7b id: 1, name: "A" \x7d]`, the rendered list has one
form instance, not two, and every rendered entity carries a persisted id
(no blank unsaved instance was appended). -/
theorem ModelForm_mount_counterexample :
    (renderedForms savedOne).length = 1
      ∧ (renderedForms savedOne).length ≠ 1 + 1
      ∧ (renderedForms savedOne).all (fun e => e.id.isSome) = true := by
  refine ⟨rfl, by decide, rfl⟩

/-- Claim C1 as amended: on mount the Model List Editor renders exactly one
form instance per fetched entity, with that entity as defaults; no blank
instance is appended on mount — a blank entity with a client-only temporary
id (and no persisted id) is appended only when the Create action runs. -/
theorem ModelForm_mount_renders_fetched :
    (∀ fetched : List Entity,
        renderedForms (componentDidMountModel fetched) = fetched)
      ∧ (∀ st : MFState,
          (createHandler st).objects = st.objects ++ [blankEntity st.newCount]
            ∧ (blankEntity st.newCount).id = none
            ∧ (blankEntity st.newCount).tempId = some st.newCount) :=
  ⟨fun _ => rfl, fun _ => ⟨rfl, rfl, rfl⟩⟩

/-- Claim C5: deleting an entity with a persisted id issues one DELETE
request and removes the entity from the list only when the response is ok
(leaving the state untouched otherwise); deleting an entity without a
persisted id removes it immediately with zero network calls. -/
theorem ModelForm_delete_behavior (b : String) (st : MFState) (i : Nat)
    (obj : Entity) (respOk : Bool) (h : st.objects[i]? = some obj) :
    (obj.id = none →
        deleteHandler b st i respOk =
          ({ st with objects := st.objects.eraseIdx i }, []))
      ∧ (∀ oid : Int, obj.id = some oid →
          (deleteHandler b st i respOk).snd =
              [ApiCall.delete (b ++ toString oid ++ "/?format=json")]
            ∧ (respOk = true →
                (deleteHandler b st i respOk).fst =
                  { st with objects := st.objects.eraseIdx i })
            ∧ (respOk = false → (deleteHandler b st i respOk).fst = st)) := by
  constructor
  · intro hid
    simp [deleteHandler, h, hid]
  · intro oid hid
    cases respOk <;> simp [deleteHandler, h, hid]

/-- Witness for C5: deleting the blank entity of a concrete list removes it
with no network call; deleting the persisted entity `id: 1` with a failing
response leaves the list unchanged while one DELETE request was issued. -/
theorem ModelForm_delete_behavior_witness :
    deleteHandler "/api/" (createHandler (componentDidMountModel [])) 0 true =
        ({ createHandler (componentDidMountModel []) with objects := [] }, [])
      ∧ (deleteHandler "/api/" savedOne 0 false).fst = savedOne
      ∧ (deleteHandler "/api/" savedOne 0 false).snd =
          [ApiCall.delete "/api/1/?format=json"] :=
  ⟨(ModelForm_delete_behavior "/api/" (createHandler (componentDidMountModel []))
      0 (blankEntity 0) true (by rfl)).1 rfl,
   ((ModelForm_delete_behavior "/api/" savedOne 0
      { id := some 1, tempId := none, status := none,
        data := [("name", Value.str "A")] } false (by rfl)).2 1 rfl).2.2 rfl,
   ((ModelForm_delete_behavior "/api/" savedOne 0
      { id := some 1, tempId := none, status := none,
        data := [("name", Value.str "A")] } false (by rfl)).2 1 rfl).1⟩

/-- Counterexample to claim C8: on a concrete one-entity collection, the
delete handler changes the collection contents while keeping the very same
array (identity token unchanged — an in-place splice, not a replace), and
the create handler likewise keeps the same array. -/
theorem ModelForm_inplace_update_counterexample :
    (deleteHandler "/api/" savedOne 0 true).fst.objectsRef = savedOne.objectsRef
      ∧ (deleteHandler "/api/" savedOne 0 true).fst.objects.length ≠
          savedOne.objects.length
      ∧ (createHandler savedOne).objectsRef = savedOne.objectsRef := by
  refine ⟨rfl, by decide, rfl⟩

/-- Claim C8 as amended: each handler's update reads the latest prior
collection through a functional `setState` updater, but only the save
handlers replace the collection with a fresh array (`[...objects]`); the
delete removal and the create append mutate the existing array in place
(`splice` / `push`) and keep its identity. -/
theorem ModelForm_update_identities (b : String) (st : MFState) (i : Nat)
    (respOk : Bool) (respId : Int) (respData : List (String × Value))
    (obj : Entity) (h : st.objects[i]? = some obj)
    (href : st.objectsRef ≠ st.nextRef) :
    ((saveHandler b st i respOk respId respData).fst.objectsRef = st.nextRef
        ∧ (saveHandler b st i respOk respId respData).fst.objectsRef ≠
            st.objectsRef)
      ∧ (deleteHandler b st i respOk).fst.objectsRef = st.objectsRef
      ∧ (createHandler st).objectsRef = st.objectsRef := by
  have hsave : (saveHandler b st i respOk respId respData).fst.objectsRef =
      st.nextRef := by
    cases hid : obj.id <;> cases respOk <;> simp [saveHandler, h, hid]
  refine ⟨⟨hsave, ?_⟩, ?_, rfl⟩
  · rw [hsave]; exact fun hc => href hc.symm
  · cases hid : obj.id <;> cases respOk <;> simp [deleteHandler, h, hid]

/-- Witness for the amended C8: on a concrete collection, a save allocates
the fresh array token while delete and create keep the existing one. -/
theorem ModelForm_update_identities_witness :
    ((saveHandler "/api/" savedOne 0 true 5 []).fst.objectsRef = savedOne.nextRef
        ∧ (saveHandler "/api/" savedOne 0 true 5 []).fst.objectsRef ≠
            savedOne.objectsRef)
      ∧ (deleteHandler "/api/" savedOne 0 true).fst.objectsRef =
          savedOne.objectsRef
      ∧ (createHandler savedOne).objectsRef = savedOne.objectsRef :=
  ModelForm_update_identities "/api/" savedOne 0 true 5 []
    { id := some 1, tempId := none, status := none,
      data := [("name", Value.str "A")] } (by rfl) (by decide)

/-! ### Temporary-id invariant of the Model List Editor -/

/-- Replacing a list entry by one with the same `tempId` leaves the
collected temporary ids unchanged. -/
theorem filterMap_tempId_set :
    ∀ (l : List Entity) (i : Nat) (a b : Entity),
      l[i]? = some a → b.tempId = a.tempId →
      (l.set i b).filterMap Entity.tempId = l.filterMap Entity.tempId := by
  intro l
  induction l with
  | nil => intro i a b h _; simp at h
  | cons x tl ih =>
      intro i a b h hab
      cases i with
      | zero =>
          simp only [List.getElem?_cons_zero, Option.some.injEq] at h
          subst h
          simp [List.set, List.filterMap_cons, hab]
      | succ n =>
          simp only [List.getElem?_cons_succ] at h
          simp [List.set, List.filterMap_cons, ih n a b h hab]

/-- The delete handler either leaves the state unchanged or erases the
clicked index from the collection (never touching `newCount`). -/
theorem deleteHandler_fst_cases (b : String) (st : MFState) (i : Nat)
    (respOk : Bool) :
    (deleteHandler b st i respOk).fst = st
      ∨ (deleteHandler b st i respOk).fst =
          { st with objects := st.objects.eraseIdx i } := by
  rcases hx : st.objects[i]? with _ | obj
  · left; simp [deleteHandler, hx]
  · rcases hid : obj.id with _ | oid
    · right; simp [deleteHandler, hx, hid]
    · cases respOk
      · left; simp [deleteHandler, hx, hid]
      · right; simp [deleteHandler, hx, hid]

/-- The save handler either leaves the state unchanged (unreachable index)
or replaces the entity at the clicked index by one with the same `tempId`,
swapping in the freshly-allocated array token (never touching
`newCount`). -/
theorem saveHandler_fst_cases (b : String) (st : MFState) (i : Nat)
    (respOk : Bool) (respId : Int) (respData : List (String × Value)) :
    (saveHandler b st i respOk respId respData).fst = st
      ∨ ∃ a a' : Entity, st.objects[i]? = some a ∧ a'.tempId = a.tempId
          ∧ (saveHandler b st i respOk respId respData).fst =
              { st with objects := st.objects.set i a',
                        objectsRef := st.nextRef,
                        nextRef := st.nextRef + 1 } := by
  rcases hx : st.objects[i]? with _ | obj
  · left; simp [saveHandler, hx]
  · right
    rcases hid : obj.id with _ | oid
    · cases respOk
      · exact ⟨obj, { obj with status := some false }, rfl, rfl,
          by simp [saveHandler, hx, hid]⟩
      · exact ⟨obj, { mergeResp obj respId respData with status := some true },
          rfl, rfl, by simp [saveHandler, hx, hid]⟩
    · exact ⟨obj, { obj with status := some respOk }, rfl, rfl,
        by simp [saveHandler, hx, hid]⟩

/-- Invariant of every reachable `ModelForm` state: all temporary ids in
the collection are below the `newCount` counter and pairwise distinct. -/
theorem reachable_tempIds_inv {b : String} {st : MFState}
    (h : Reachable b st) :
    (∀ t ∈ tempIds st, t < st.newCount) ∧ (tempIds st).Nodup := by
  induction h with
  | mount fetched hf =>
      have hnil : tempIds (componentDidMountModel fetched) = [] := by
        simp only [tempIds, componentDidMountModel]
        exact List.filterMap_eq_nil_iff.mpr hf
      rw [hnil]
      exact ⟨by simp, List.nodup_nil⟩
  | @create st hst ih =>
      obtain ⟨ihb, ihn⟩ := ih
      have ht : tempIds (createHandler st) = tempIds st ++ [st.newCount] := by
        simp [tempIds, createHandler, blankEntity, List.filterMap_append,
          Entity.tempId]
      constructor
      · intro t htm
        rw [ht] at htm
        rcases List.mem_append.mp htm with h1 | h1
        · exact Nat.lt_succ_of_lt (ihb t h1)
        · simp at h1
          subst h1
          exact Nat.lt_succ_self _
      · rw [ht]
        refine List.Nodup.append ihn (List.nodup_singleton _) ?_
        intro t htm htm1
        simp at htm1
        subst htm1
        exact Nat.lt_irrefl _ (ihb _ htm)
  | @del st i respOk hst ih =>
      rcases deleteHandler_fst_cases b st i respOk with hc | hc
      · rw [hc]; exact ih
      · rw [hc]
        obtain ⟨ihb, ihn⟩ := ih
        have hsub : List.Sublist
            ((st.objects.eraseIdx i).filterMap Entity.tempId) (tempIds st) :=
          (List.eraseIdx_sublist st.objects i).filterMap _
        exact ⟨fun t htm => ihb t (hsub.subset htm), ihn.sublist hsub⟩
  | @save st i respOk respId respData hst ih =>
      rcases saveHandler_fst_cases b st i respOk respId respData with
        hc | ⟨a, a', hx, hab, hc⟩
      · rw [hc]; exact ih
      · rw [hc]
        obtain ⟨ihb, ihn⟩ := ih
        have hset : (st.objects.set i a').filterMap Entity.tempId =
            tempIds st := filterMap_tempId_set st.objects i a a' hx hab
        have htem : tempIds
            { st with
                objects := st.objects.set i a'
                objectsRef := st.nextRef
                nextRef := st.nextRef + 1 } = tempIds st := hset
        refine ⟨?_, ?_⟩
        · intro t htm
          rw [htem] at htm
          exact ihb t htm
        · rw [htem]
          exact ihn

/-- Claim C10: the Create action appends a blank entity whose temporary id
is the current `newCount`, then increments the counter; no handler
decreases it; consequently the temporary ids of the unsaved entities of any
reachable state are pairwise distinct. -/
theorem ModelForm_tempIds_distinct (b : String) (st : MFState)
    (h : Reachable b st) :
    ((createHandler st).objects = st.objects ++ [blankEntity st.newCount]
        ∧ (createHandler st).newCount = st.newCount + 1)
      ∧ (∀ i respOk, st.newCount ≤ (deleteHandler b st i respOk).fst.newCount)
      ∧ (∀ i respOk respId respData,
          st.newCount ≤ (saveHandler b st i respOk respId respData).fst.newCount)
      ∧ (unsavedTempIds st).Nodup := by
  refine ⟨⟨rfl, rfl⟩, ?_, ?_, ?_⟩
  · intro i respOk
    rcases deleteHandler_fst_cases b st i respOk with hc | hc <;> rw [hc]
  · intro i respOk respId respData
    rcases saveHandler_fst_cases b st i respOk respId respData with
      hc | ⟨a, a', _, _, hc⟩ <;> rw [hc]
  · have hsub : List.Sublist (unsavedTempIds st) (tempIds st) :=
      (List.filter_sublist st.objects).filterMap _
    exact (reachable_tempIds_inv h).2.sublist hsub

/-- Witness for C10: after mounting on an empty fetch and clicking Create
twice, the unsaved temporary ids of the reached state are distinct. -/
theorem ModelForm_tempIds_distinct_witness :
    (unsavedTempIds
        (createHandler (createHandler (componentDidMountModel [])))).Nodup :=
  (ModelForm_tempIds_distinct "/api/"
      (createHandler (createHandler (componentDidMountModel [])))
      (Reachable.create (Reachable.create
        (Reachable.mount [] (by intro e he; cases he))))).2.2.2

end Clubs
